import Mathlib

/-!
Verification of the reactive data-access layer of the flyfront monorepo
(`CacheService`, `ApiService`, `WebSocketService`), shallowly embedded in
Lean 4 from `libs/data-access/src/lib/services/cache.service.ts` and
`libs/data-access/src/lib/data-access/data-access.ts`.

Modelling conventions:
- `Date.now()` is passed explicitly as a `now : Nat` (milliseconds).
- A JS value of type `T | null` is modelled as `Option α` (`none` is `null`).
- JS `Map<string, V>` is modelled as an association list with unique keys,
  mutated only through helpers mirroring `Map.get/set/delete`.
- RxJS observables are modelled by their synchronous set-up effects on the
  service state plus explicit completion events (success emission / error),
  each an explicit state-transition function.
-/

namespace Flyfront

/-! ### Association-list helpers (JS `Map<string, _>` and key lists) -/

/-- Lookup in an association list, mirroring `Map.get`. -/
def alookup (k : String) : List (String × β) → Option β
  | [] => none
  | (k₁, v) :: rest => if k₁ = k then some v else alookup k rest

/-- Insert-or-overwrite, mirroring `Map.set` (replaces in place, appends if new). -/
def aset (k : String) (v : β) : List (String × β) → List (String × β)
  | [] => [(k, v)]
  | (k₁, v₁) :: rest => if k₁ = k then (k, v) :: rest else (k₁, v₁) :: aset k v rest

/-- Removal, mirroring `Map.delete`. -/
def aerase (k : String) : List (String × β) → List (String × β)
  | [] => []
  | (k₁, v) :: rest => if k₁ = k then aerase k rest else (k₁, v) :: aerase k rest

/-- Membership test for a key list (the `observables` map keys). -/
def scontains (k : String) : List String → Bool
  | [] => false
  | x :: rest => if x = k then true else scontains k rest

/-- Removal from a key list. -/
def serase (k : String) : List String → List String
  | [] => []
  | x :: rest => if x = k then serase k rest else x :: serase k rest

theorem alookup_aset_self (k : String) (v : β) (l : List (String × β)) :
    alookup k (aset k v l) = some v := by
  induction l with
  | nil => simp [aset, alookup]
  | cons hd tl ih =>
    by_cases h : hd.1 = k
    · simp [aset, h, alookup]
    · simp [aset, h, alookup, ih]

theorem alookup_aerase_self (k : String) (l : List (String × β)) :
    alookup k (aerase k l) = none := by
  induction l with
  | nil => simp [aerase, alookup]
  | cons hd tl ih =>
    by_cases h : hd.1 = k
    · simp [aerase, h, ih]
    · simp [aerase, h, alookup, ih]

/-! ### CacheService

Embedded from `CacheService` in `cache.service.ts` (lines 46-259).
The `data` field of `CacheEntry` is `Option α`: the service stores values of
type `T` where `T` may itself be instantiated with a nullable type, and the
public API uses `null` as its absence sentinel, so a stored `null` (`none`)
is observationally entangled with a miss.
-/

structure CacheEntry (α : Type) where
  data : Option α
  expiry : Nat
  createdAt : Nat
  deriving Repr, DecidableEq

structure CacheStats where
  hits : Nat
  misses : Nat
  size : Nat
  deriving Repr, DecidableEq

/-- The mutable fields of `CacheService`: the entry map, the pending
observable map (tracked by key), the log of keys emitted on `invalidated$`,
and the stats signal. -/
structure CacheState (α : Type) where
  cache : List (String × CacheEntry α)
  observables : List String
  invalidated : List String
  stats : CacheStats
  deriving Repr, DecidableEq

def emptyCache : CacheState α := ⟨[], [], [], ⟨0, 0, 0⟩⟩

/-- Source `isExpired`: `Date.now() > entry.expiry`. -/
def isExpired (now : Nat) (e : CacheEntry α) : Bool := decide (now > e.expiry)

def recordHit (s : CacheState α) : CacheState α :=
  { s with stats := { s.stats with hits := s.stats.hits + 1 } }

def recordMiss (s : CacheState α) : CacheState α :=
  { s with stats := { s.stats with misses := s.stats.misses + 1 } }

/-- Source `updateSize`: `size := this.cache.size`. -/
def updateSize (s : CacheState α) : CacheState α :=
  { s with stats := { s.stats with size := s.cache.length } }

/-- Source `delete(key)`: removes the entry and any pending observable; on an actual
removal emits the key on `invalidated$` and updates the size stat. -/
def cacheDelete (key : String) (s : CacheState α) : Bool × CacheState α :=
  let deleted := (alookup key s.cache).isSome
  let s₁ := { s with cache := aerase key s.cache, observables := serase key s.observables }
  if deleted then (true, updateSize { s₁ with invalidated := s₁.invalidated ++ [key] })
  else (false, s₁)

/-- Source `get(key)`: returns the cached value if present and unexpired (hit);
otherwise records a miss, evicting lazily if expired. -/
def cacheGet (now : Nat) (key : String) (s : CacheState α) : Option α × CacheState α :=
  match alookup key s.cache with
  | none => (none, recordMiss s)
  | some e =>
    if isExpired now e then (none, recordMiss (cacheDelete key s).2)
    else (e.data, recordHit s)

/-- Source `set(key, data, ttl)`: overwrites with `expiry = now + ttl`, `createdAt = now`. -/
def cacheSet (key : String) (data : Option α) (ttl now : Nat) (s : CacheState α) :
    CacheState α :=
  updateSize { s with cache := aset key ⟨data, now + ttl, now⟩ s.cache }

/-- Source `has(key)`: existence check with lazy eviction, no stats side effect. -/
def cacheHas (now : Nat) (key : String) (s : CacheState α) : Bool × CacheState α :=
  match alookup key s.cache with
  | none => (false, s)
  | some e =>
    if isExpired now e then (false, (cacheDelete key s).2)
    else (true, s)

/-- Result of the synchronous part of `wrap(key, factory, ttl)`. -/
inductive WrapResult (α : Type) where
  | cachedValue (v : α)
  | pending
  | newRequest
  deriving Repr, DecidableEq

/-- Synchronous part of `wrap`: check `get` (`cached !== null`), then the
pending map, else invoke the factory (the third component counts factory
invocations) and register the piped observable under the key. -/
def wrapStep (now : Nat) (key : String) (s : CacheState α) :
    WrapResult α × CacheState α × Nat :=
  match cacheGet now key s with
  | (some v, s₁) => (.cachedValue v, s₁, 0)
  | (none, s₁) =>
    if scontains key s₁.observables then (.pending, s₁, 0)
    else (.newRequest, { s₁ with observables := key :: s₁.observables }, 1)

/-- Success emission of a wrapped request: the `tap` callback runs
`set(key, data, ttl)` then `observables.delete(key)` (a bare `Map.delete`,
no invalidation event). -/
def wrapComplete (now : Nat) (key : String) (ttl : Nat) (d : Option α)
    (s : CacheState α) : CacheState α :=
  let s₁ := cacheSet key d ttl now s
  { s₁ with observables := serase key s₁.observables }

/-- Error completion of a wrapped request: the pipe is
`tap((data) => ...)` followed by `shareReplay(1)` — there is no error
callback, no `catchError` and no `finalize`, so the service state is
untouched when the factory errors. -/
def wrapErrorStep (s : CacheState α) : CacheState α := s

/-- Events (values and errors) of the wrapped observable pass through to
subscribers unchanged: `tap` is effect-only and `shareReplay` replays. -/
def wrapNewRequestOutcome (fres : Except ε (Option α)) : Except ε (Option α) := fres

/-- Source `getOrSet(key, factory, ttl)`: cache-aside; the third component records
whether the factory was invoked. -/
def getOrSet (now : Nat) (key : String) (ttl : Nat) (factoryVal : Option α)
    (s : CacheState α) : Option α × CacheState α × Bool :=
  match cacheGet now key s with
  | (some v, s₁) => (some v, s₁, false)
  | (none, s₁) => (factoryVal, cacheSet key factoryVal ttl now s₁, true)

/-- N successive `wrap` calls on one key with no completion in between
(one event-loop turn): returns the final state, the total number of factory
invocations, and the per-call results. -/
def wrapN (now : Nat) (key : String) : Nat → CacheState α → CacheState α × Nat × List (WrapResult α)
  | 0, s => (s, 0, [])
  | n + 1, s =>
    let r := wrapStep now key s
    let rest := wrapN now key n r.2.1
    (rest.1, r.2.2 + rest.2.1, r.1 :: rest.2.2)

/-! ### ApiService — response cache and GET (cache-enabled path)

Embedded from `ApiService` in `cache.service.ts` (lines 346-1168).
`ApiService` keeps its own inline cache `Map<string, {data, expiry}>`
(no `createdAt`) and, notably, no pending-request map. `httpCount` counts
HTTP requests actually dispatched by the transport.
-/

structure ApiEntry (α : Type) where
  data : α
  expiry : Nat
  deriving Repr, DecidableEq

structure ApiState (α : Type) where
  cache : List (String × ApiEntry α)
  httpCount : Nat
  deriving Repr, DecidableEq

def emptyApi : ApiState α := ⟨[], 0⟩

/-- Source `getFromCache(key)`: returns a single-value observable when present and
`expiry > now`; otherwise runs `cache.delete(key)` (in both miss paths) and
returns `null`. -/
def apiGetFromCache (now : Nat) (key : String) (s : ApiState α) :
    Option α × ApiState α :=
  match alookup key s.cache with
  | some e =>
    if e.expiry > now then (some e.data, s)
    else (none, { s with cache := aerase key s.cache })
  | none => (none, { s with cache := aerase key s.cache })

/-- What a cache-enabled `get` hands back to its caller. -/
inductive ApiGetResult (α : Type) where
  | cachedStream (v : α)
  | newRequest
  deriving Repr, DecidableEq

/-- Synchronous part of `ApiService.get` with `config.cache.enabled`, after
the cache key has been resolved to `config.cache.key ?? url`: check
`getFromCache`; on a miss build a fresh `http.get(...).pipe(catchError, shareReplay(1), map(setCache))`
observable. Each call builds its own observable — nothing records it in a
pending map. -/
def apiGetStart (now : Nat) (key : String) (s : ApiState α) :
    ApiGetResult α × ApiState α :=
  match apiGetFromCache now key s with
  | (some v, s₁) => (.cachedStream v, s₁)
  | (none, s₁) => (.newRequest, s₁)

/-- Subscribing the result of a `get` call: a fresh request observable
dispatches one HTTP request on its first subscription (`shareReplay(1)`
shares it only among subscribers of that same observable); the cached
single-value observable dispatches none. -/
def apiSubscribe (r : ApiGetResult α) (s : ApiState α) : ApiState α :=
  match r with
  | .cachedStream _ => s
  | .newRequest => { s with httpCount := s.httpCount + 1 }

/-- Source `setCache` via the `map` stage on a successful response:
`{ data, expiry: now + ttl }`. -/
def apiComplete (now : Nat) (key : String) (ttl : Nat) (d : α) (s : ApiState α) :
    ApiState α :=
  { s with cache := aset key ⟨d, now + ttl⟩ s.cache }

/-! ### ApiService — `withRetry`

Embedded from `withRetry` (lines 759-792): `retryWhen` with a `scan`
starting at 0 that throws when either the count has reached `maxRetries`
or the error is an `HttpErrorResponse` whose status is absent from
`retryStatuses`, followed by a `switchMap` to a `timer` whose delay is
computed from the scan output — the already-incremented retry count.
-/

structure RetryConfig where
  maxRetries : Nat
  retryDelay : Nat
  retryStatuses : List Nat
  exponentialBackoff : Bool
  deriving Repr, DecidableEq

/-- Source `DEFAULT_RETRY_CONFIG` (lines 339-344); `withRetry` merges a partial
caller config over these defaults. -/
def DEFAULT_RETRY_CONFIG : RetryConfig :=
  { maxRetries := 3
    retryDelay := 1000
    retryStatuses := [408, 429, 500, 502, 503, 504]
    exponentialBackoff := true }

/-- An error raised by the request factory: an `HttpErrorResponse` carrying
a status, or any other error (the `instanceof` check fails on those). -/
inductive ReqError where
  | http (status : Nat)
  | other
  deriving Repr, DecidableEq

/-- The `instanceof HttpErrorResponse` + `retryStatuses.includes` check:
`true` when the scan must rethrow because the status is not retryable. -/
def nonRetryable (cfg : RetryConfig) : ReqError → Bool
  | .http s => !(cfg.retryStatuses.contains s)
  | .other => false

/-- Delay fed to `timer` for scan output `retryCount`:
`min(retryDelay * 2^retryCount, 30000)` under exponential backoff, else
flat `retryDelay`. -/
def backoffDelay (cfg : RetryConfig) (retryCount : Nat) : Nat :=
  if cfg.exponentialBackoff then min (cfg.retryDelay * 2 ^ retryCount) 30000
  else cfg.retryDelay

/-- Outcome of a `withRetry` stream together with the backoff delays slept
between attempts, in order. -/
inductive RetryOutcome (α : Type) where
  | ok (v : α) (delays : List Nat)
  | err (e : ReqError) (delays : List Nat)
  deriving Repr, DecidableEq

/-- One resubscription loop of `withRetry`. `factory n` is the outcome of
the n-th invocation of the request factory (1-based); `acc` is the scan
accumulator. The fuel only bounds recursion: the scan throws once
`acc ≥ maxRetries`, so `maxRetries + 1` fuel is never exhausted from
`acc = 0` (the fuel-0 fallback is unreachable for `withRetry`). -/
def withRetryGo (cfg : RetryConfig) (factory : Nat → Except ReqError α) :
    Nat → Nat → List Nat → RetryOutcome α
  | 0, _, delays => .err .other delays.reverse
  | fuel + 1, acc, delays =>
    match factory (acc + 1) with
    | .ok v => .ok v delays.reverse
    | .error e =>
      if acc ≥ cfg.maxRetries then .err e delays.reverse
      else if nonRetryable cfg e then .err e delays.reverse
      else withRetryGo cfg factory fuel (acc + 1) (backoffDelay cfg (acc + 1) :: delays)

def withRetry (cfg : RetryConfig) (factory : Nat → Except ReqError α) : RetryOutcome α :=
  withRetryGo cfg factory (cfg.maxRetries + 1) 0 []

/-! ### ApiService — `createPaginatedStream`

Embedded from `createPaginatedStream` (lines 866-939). The five
`BehaviorSubject`s plus the page of the outstanding request (the `switchMap`
keeps at most one) form the state; each `page$` emission sets `loading`
and issues a request, whose response is folded in by the subscribe handler.
-/

structure PagState (ι : Type) where
  page : Nat
  data : List ι
  loading : Bool
  hasMore : Bool
  lastError : Option Nat
  pendingPage : Option Nat
  deriving Repr, DecidableEq

/-- State right after the internal subscription is set up: `page$` is a
`BehaviorSubject(initialPage)`, so it emits once — `tap` sets `loading`
and `switchMap` issues the request for the initial page. -/
def pagInit (initialPage : Nat) : PagState ι :=
  { page := initialPage
    data := []
    loading := true
    hasMore := true
    lastError := none
    pendingPage := some initialPage }

/-- Response handler: clear `loading` and `error`; replace the list when
`page$.value` is still the initial page, else append; track
`meta.hasNextPage`. -/
def pagResponse (initialPage : Nat) (items : List ι) (hasNext : Bool)
    (s : PagState ι) : PagState ι :=
  { s with
    loading := false
    lastError := none
    data := if s.page = initialPage then items else s.data ++ items
    hasMore := hasNext
    pendingPage := none }

/-- Request failure: `catchError` pushes the error on `error$` and returns
`EMPTY`, so the subscribe handler never runs — `loading` stays as it was. -/
def pagError (code : Nat) (s : PagState ι) : PagState ι :=
  { s with lastError := some code, pendingPage := none }

/-- Source `loadMore()`: guarded by `!loading$.value && hasMore$.value`; advances
`page$`, which re-triggers the `tap`/`switchMap` pipeline. -/
def pagLoadMore (s : PagState ι) : PagState ι :=
  if ¬s.loading ∧ s.hasMore then
    { s with page := s.page + 1, loading := true, pendingPage := some (s.page + 1) }
  else s

/-- Source `reset()`: empty the accumulator, restore `hasMore`, and re-emit the
initial page on `page$` (which sets `loading` and issues a request). -/
def pagReset (initialPage : Nat) (s : PagState ι) : PagState ι :=
  { s with
    data := []
    hasMore := true
    page := initialPage
    loading := true
    pendingPage := some initialPage }

/-! ### WebSocketService

Embedded from `WebSocketService` in `data-access.ts` (lines 276-525).
The service drives an `rxjs/webSocket` subject. Per the rxjs
`WebSocketSubject` semantics, a close event first notifies the configured
`closeObserver` and then, when `wasClean` is false, errors the subject's
subscribers — so one unclean close runs both the service's `closeObserver`
callback and its subscription error handler, in that order.

`generateMessageId` (`Date.now()` + random suffix) is abstracted as a
caller-supplied fresh `Nat`; message uniqueness is all the code relies on.
The url/protocols fields of the config are irrelevant to the modelled
behaviour and omitted.
-/

inductive WSConnState where
  | connecting
  | connected
  | disconnected
  | reconnecting
  | error
  deriving Repr, DecidableEq

/-- Connection options; the literal defaults are the ones `connect` spreads
under the caller's config. -/
structure WSConfig where
  reconnect : Bool := true
  reconnectInterval : Nat := 3000
  reconnectAttempts : Nat := 10
  heartbeatInterval : Nat := 30000
  deriving Repr, DecidableEq

/-- Values carried by the `_error` signal: the raw transport/close event
handed to the subscription's error callback, or the
`Error('Max reconnection attempts reached')` built in `attemptReconnect`. -/
inductive WSError where
  | transport
  | maxReconnect
  deriving Repr, DecidableEq

structure WSMsg (α : Type) where
  type : String
  payload : α
  timestamp : Option Nat
  id : Option Nat
  deriving Repr, DecidableEq

structure WSState (α : Type) where
  socketNonNull : Bool
  connState : WSConnState
  config : Option WSConfig
  reconnectAttempts : Nat
  heartbeatOn : Bool
  lastError : Option WSError
  outbox : List (WSMsg α)
  deriving Repr, DecidableEq

def wsInit : WSState α :=
  { socketNonNull := false
    connState := .disconnected
    config := none
    reconnectAttempts := 0
    heartbeatOn := false
    lastError := none
    outbox := [] }

def wsStopHeartbeat (s : WSState α) : WSState α := { s with heartbeatOn := false }

/-- Source `createConnection()`: builds a fresh `webSocket` subject (with open and
close observers) and subscribes it; no signal or counter changes until its
events fire. -/
def wsCreateConnection (s : WSState α) : WSState α :=
  match s.config with
  | none => s
  | some _ => { s with socketNonNull := true }

/-- Source `attemptReconnect()`: gives up (setting the max-attempts error) once the
counter has reached `reconnectAttempts`; otherwise enters `reconnecting`,
increments the counter and schedules a `timer(reconnectInterval)` that
re-opens if the state is still `reconnecting` when it fires. -/
def wsAttemptReconnect (s : WSState α) : WSState α :=
  match s.config with
  | none => s
  | some cfg =>
    if s.reconnectAttempts ≥ cfg.reconnectAttempts then
      { s with lastError := some .maxReconnect }
    else
      { s with connState := .reconnecting, reconnectAttempts := s.reconnectAttempts + 1 }

/-- Source `openObserver`: `connected`, error cleared, counter reset, heartbeat
started (when `heartbeatInterval` is truthy). -/
def wsOpenEvent (s : WSState α) : WSState α :=
  let hb := match s.config with
    | some cfg => decide (cfg.heartbeatInterval ≠ 0)
    | none => false
  { s with connState := .connected, lastError := none, reconnectAttempts := 0,
           heartbeatOn := hb }

/-- Source `closeObserver`: `disconnected`, heartbeat stopped, reconnect attempted
when enabled and the close was not clean. -/
def wsCloseObserver (wasClean : Bool) (s : WSState α) : WSState α :=
  let s₁ := wsStopHeartbeat { s with connState := .disconnected }
  match s₁.config with
  | some cfg => if cfg.reconnect ∧ ¬wasClean then wsAttemptReconnect s₁ else s₁
  | none => s₁

/-- The subscription's error callback: record the error, enter the `error`
state, attempt a reconnect when enabled. -/
def wsSubscriberError (e : WSError) (s : WSState α) : WSState α :=
  let s₁ := { s with lastError := some e, connState := .error }
  match s₁.config with
  | some cfg => if cfg.reconnect then wsAttemptReconnect s₁ else s₁
  | none => s₁

/-- Source `disconnect()`: stop heartbeat, complete and drop the socket, reset
state, config and counter. -/
def wsDisconnect (s : WSState α) : WSState α :=
  { wsStopHeartbeat s with
    socketNonNull := false
    connState := .disconnected
    config := none
    reconnectAttempts := 0 }

/-- Source `connect(config)`: tear down any live socket, install the
default-merged config, enter `connecting` and open. -/
def wsConnect (cfg : WSConfig) (s : WSState α) : WSState α :=
  let s₁ := if s.socketNonNull then wsDisconnect s else s
  wsCreateConnection
    { s₁ with config := some cfg, connState := .connecting, lastError := none,
              reconnectAttempts := 0 }

/-- An unclean close delivered by the rxjs subject: `closeObserver.next`
then `subscriber.error` (see the section comment). -/
def wsUncleanClose (s : WSState α) : WSState α :=
  wsSubscriberError .transport (wsCloseObserver false s)

/-- All reconnect timers scheduled by the handlers of one close fire before
the next connection event; each re-opens only if the state is still
`reconnecting`, and re-opening is idempotent on the tracked state. -/
def wsTimersFire (s : WSState α) : WSState α :=
  if s.connState = .reconnecting then wsCreateConnection s else s

/-- One failure round: an unclean close of the current connection followed
by the pending reconnect timers. -/
def wsRound (s : WSState α) : WSState α := wsTimersFire (wsUncleanClose s)

def wsAfterRounds (s : WSState α) : Nat → WSState α
  | 0 => s
  | j + 1 => wsRound (wsAfterRounds s j)

/-- Source `send(message)`: warn-and-drop unless a socket exists and the state is
`connected`; otherwise stamp `timestamp` and default the `id`, then push to
the socket. The second component tells whether anything was transmitted. -/
def wsSend (now freshId : Nat) (m : WSMsg α) (s : WSState α) : WSState α × Bool :=
  if ¬s.socketNonNull ∨ s.connState ≠ .connected then (s, false)
  else
    ({ s with outbox :=
        s.outbox ++ [{ m with timestamp := some now, id := some (m.id.getD freshId) }] },
      true)

/-- Outcome of a `request` stream: the correlated payload, or the timeout
error fired by the `setTimeout` at exactly the configured duration. -/
inductive WSReqOutcome (α : Type) where
  | response (payload : α) (t : Nat)
  | timedOut (t : Nat)
  deriving Repr, DecidableEq

/-- Source `request(type, payload, responseType, timeout)`: generate an id, start
the timeout timer, subscribe `messages$` filtered on
`type === responseType && id === id`, then `send`. `incoming` lists the
`messages$` emissions as (milliseconds since subscription, message), in
arrival order; the first match before the timer wins, else the subscriber
errors with the timeout error when the timer fires. -/
def wsRequest (now freshId : Nat) (ty : String) (payload : α)
    (responseType : String) (tmo : Nat) (incoming : List (Nat × WSMsg α))
    (s : WSState α) : WSState α × WSReqOutcome α :=
  let sent := wsSend now freshId
    { type := ty, payload := payload, timestamp := none, id := some freshId } s
  match incoming.find? (fun p =>
      decide (p.1 < tmo) && decide (p.2.type = responseType)
        && decide (p.2.id = some freshId)) with
  | some p => (sent.1, .response p.2.payload p.1)
  | none => (sent.1, .timedOut tmo)

/-! ### Helper lemmas -/

theorem scontains_serase_self (k : String) (l : List String) :
    scontains k (serase k l) = false := by
  induction l with
  | nil => simp [serase, scontains]
  | cons x rest ih =>
    by_cases h : x = k
    · simp [serase, h, ih]
    · simp [serase, h, scontains, ih]

theorem scontains_cons_self (k : String) (l : List String) :
    scontains k (k :: l) = true := by
  simp [scontains]

/-- A state in which `get(key)` misses without mutating the maps: any entry
under the key is unexpired but holds `null`. -/
def getStable (now : Nat) (key : String) (s : CacheState α) : Prop :=
  ∀ e, alookup key s.cache = some e → isExpired now e = false ∧ e.data = none

theorem cacheGet_of_stable {now : Nat} {key : String} {s : CacheState α}
    (h : getStable now key s) :
    (cacheGet now key s).1 = none ∧ (cacheGet now key s).2.cache = s.cache ∧
      (cacheGet now key s).2.observables = s.observables := by
  unfold cacheGet
  cases hl : alookup key s.cache with
  | none => simp [recordMiss]
  | some e =>
    obtain ⟨h1, h2⟩ := h e hl
    simp [h1, h2, recordHit]

theorem cacheGet_none_stable {now : Nat} {key : String} {s : CacheState α}
    (h : (cacheGet now key s).1 = none) :
    getStable now key (cacheGet now key s).2 := by
  cases hl : alookup key s.cache with
  | none =>
    intro e he
    have hc : (cacheGet now key s).2.cache = s.cache := by
      simp [cacheGet, hl, recordMiss]
    rw [hc, hl] at he
    cases he
  | some e =>
    by_cases hexp : isExpired now e
    · intro e₁ he₁
      have hc : (cacheGet now key s).2.cache = aerase key s.cache := by
        simp [cacheGet, hl, hexp, recordMiss, cacheDelete, updateSize]
      rw [hc, alookup_aerase_self] at he₁
      cases he₁
    · have hdata : e.data = none := by
        simpa [cacheGet, hl, hexp, recordHit] using h
      intro e₁ he₁
      have hc : (cacheGet now key s).2.cache = s.cache := by
        simp [cacheGet, hl, hexp, recordHit]
      rw [hc, hl] at he₁
      cases he₁
      exact ⟨by simpa using hexp, hdata⟩

theorem cacheGet_observables_cases (now : Nat) (key : String) (s : CacheState α) :
    (cacheGet now key s).2.observables = s.observables ∨
      (cacheGet now key s).2.observables = serase key s.observables := by
  unfold cacheGet
  cases hl : alookup key s.cache with
  | none => simp [recordMiss]
  | some e =>
    by_cases hexp : isExpired now e
    · right
      simp [hexp, recordMiss, cacheDelete, hl, updateSize]
    · left
      simp [hexp, recordHit]

/-- Invariant holding after the first `wrap` call on a missed key: a pending
observable is registered and `get` keeps missing without touching the maps. -/
def wrapInv (now : Nat) (key : String) (s : CacheState α) : Prop :=
  getStable now key s ∧ scontains key s.observables = true

theorem wrapStep_pending {now : Nat} {key : String} {s : CacheState α}
    (h : wrapInv now key s) :
    (wrapStep now key s).1 = .pending ∧ (wrapStep now key s).2.2 = 0 ∧
      wrapInv now key (wrapStep now key s).2.1 := by
  obtain ⟨hst, hobs⟩ := h
  obtain ⟨h1, h2, h3⟩ := cacheGet_of_stable hst
  unfold wrapStep
  rcases hc : cacheGet now key s with ⟨r, s₁⟩
  rw [hc] at h1 h2 h3
  simp only at h1 h2 h3
  subst h1
  simp only [h3, hobs, if_true]
  refine ⟨by trivial, by trivial, ?_, by simpa [h3] using hobs⟩
  intro e he
  rw [h2] at he
  exact hst e he

theorem wrapStep_first {now : Nat} {key : String} {s : CacheState α}
    (hget : (cacheGet now key s).1 = none)
    (hobs : scontains key s.observables = false) :
    (wrapStep now key s).1 = .newRequest ∧ (wrapStep now key s).2.2 = 1 ∧
      wrapInv now key (wrapStep now key s).2.1 := by
  have hst := cacheGet_none_stable hget
  have hoc := cacheGet_observables_cases now key s
  unfold wrapStep
  rcases hc : cacheGet now key s with ⟨r, s₁⟩
  rw [hc] at hget hst hoc
  simp only at hget hst hoc
  subst hget
  have hobs₁ : scontains key s₁.observables = false := by
    rcases hoc with h | h
    · rw [h]; exact hobs
    · rw [h]; exact scontains_serase_self key s.observables
  simp only [hobs₁, Bool.false_eq_true, if_false]
  exact ⟨by trivial, by trivial, fun e he => hst e he,
    scontains_cons_self key s₁.observables⟩

theorem wrapN_all_pending {now : Nat} {key : String} :
    ∀ (n : Nat) (s : CacheState α), wrapInv now key s →
      (wrapN now key n s).2.1 = 0 ∧
        (wrapN now key n s).2.2 = List.replicate n .pending := by
  intro n
  induction n with
  | zero => intro s _; simp [wrapN]
  | succ n ih =>
    intro s h
    obtain ⟨h1, h2, h3⟩ := wrapStep_pending h
    obtain ⟨ih1, ih2⟩ := ih _ h3
    simp [wrapN, h1, h2, ih1, ih2, List.replicate_succ]

/-! ### Claim theorems: CacheService -/

/-- C2. After `set(key, v, ttl)` at time `now`, a `get` at any time not past
the expiry `now + ttl` returns `v` and records a hit, leaving the entry map
unchanged (so every earlier `get` behaves the same); once the ttl has
elapsed (`now₂ > now + ttl`, the spec's own definition of expiry), `get`
returns absent, records a miss, evicts the entry, and a subsequent `has`
returns `false`. -/
theorem cache_ttl_get_has (s : CacheState α) (key : String) (v : α)
    (ttl now now₁ now₂ now₃ : Nat) :
    (now₁ ≤ now + ttl →
      (cacheGet now₁ key (cacheSet key (some v) ttl now s)).1 = some v ∧
      (cacheGet now₁ key (cacheSet key (some v) ttl now s)).2.stats.hits
        = (cacheSet key (some v) ttl now s).stats.hits + 1 ∧
      (cacheGet now₁ key (cacheSet key (some v) ttl now s)).2.cache
        = (cacheSet key (some v) ttl now s).cache) ∧
    (now + ttl < now₂ →
      (cacheGet now₂ key (cacheSet key (some v) ttl now s)).1 = none ∧
      (cacheGet now₂ key (cacheSet key (some v) ttl now s)).2.stats.misses
        = (cacheSet key (some v) ttl now s).stats.misses + 1 ∧
      alookup key (cacheGet now₂ key (cacheSet key (some v) ttl now s)).2.cache = none ∧
      (cacheHas now₃ key (cacheGet now₂ key (cacheSet key (some v) ttl now s)).2).1
        = false) := by
  have hl : alookup key (cacheSet key (some v) ttl now s).cache
      = some ⟨some v, now + ttl, now⟩ := by
    simp [cacheSet, updateSize, alookup_aset_self]
  constructor
  · intro h
    have hexp : isExpired now₁ (⟨some v, now + ttl, now⟩ : CacheEntry α) = false := by
      simp [isExpired]; omega
    simp [cacheGet, hl, hexp, recordHit]
  · intro h
    have hexp : isExpired now₂ (⟨some v, now + ttl, now⟩ : CacheEntry α) = true := by
      simp [isExpired]; omega
    have hnone : alookup key
        (recordMiss (cacheDelete key (cacheSet key (some v) ttl now s)).2).cache
          = none := by
      simp [cacheDelete, hl, recordMiss, updateSize, alookup_aerase_self]
    refine ⟨by simp [cacheGet, hl, hexp], ?_, ?_, ?_⟩
    · simp [cacheGet, hl, hexp, recordMiss, cacheDelete, updateSize]
    · simpa [cacheGet, hl, hexp] using hnone
    · simp only [cacheGet, hl, hexp, if_true]
      simp [cacheHas, hnone]

/-- Witness for C2 at `key = "k"`, `v = 7`, `ttl = 100`, `set` at 0, `get`
at 100 (hit) and 101 (expired). -/
theorem cache_ttl_get_has_witness :
    (cacheGet 100 "k" (cacheSet "k" (some 7) 100 0 (emptyCache (α := Nat)))).1 = some 7 ∧
    (cacheGet 101 "k" (cacheSet "k" (some 7) 100 0 (emptyCache (α := Nat)))).1 = none ∧
    (cacheHas 101 "k"
      (cacheGet 101 "k" (cacheSet "k" (some 7) 100 0 (emptyCache (α := Nat)))).2).1
        = false := by
  have h := cache_ttl_get_has (emptyCache (α := Nat)) "k" 7 100 0 100 101 101
  exact ⟨(h.1 (by omega)).1, (h.2 (by omega)).1, (h.2 (by omega)).2.2.2⟩

/-- C3. N (= n+1 ≥ 1) `wrap` calls on one key in a single event-loop turn,
starting from a state where `get(key)` misses and no pending observable is
registered: the factory is invoked exactly once, the first caller gets the
fresh request and every later caller gets the shared pending observable. -/
theorem wrap_single_flight (s : CacheState α) (key : String) (now n : Nat)
    (hget : (cacheGet now key s).1 = none)
    (hobs : scontains key s.observables = false) :
    (wrapN now key (n + 1) s).2.1 = 1 ∧
    (wrapN now key (n + 1) s).2.2
      = .newRequest :: List.replicate n .pending := by
  obtain ⟨h1, h2, h3⟩ := wrapStep_first hget hobs
  obtain ⟨ih1, ih2⟩ := wrapN_all_pending n _ h3
  simp [wrapN, h1, h2, ih1, ih2]

/-- Witness for C3: three `wrap("k", ...)` calls on the empty cache invoke
the factory once. -/
theorem wrap_single_flight_witness :
    (wrapN 0 "k" 3 (emptyCache (α := Nat))).2.1 = 1 ∧
    (wrapN 0 "k" 3 (emptyCache (α := Nat))).2.2
      = .newRequest :: List.replicate 2 .pending := by
  exact wrap_single_flight (emptyCache (α := Nat)) "k" 0 2 (by decide) (by decide)

/-- C5, counterexample. The claim says the pending-request entry is removed
when the request completes "whether it completes with success or with
error"; but after a missed `wrap("k", ...)` whose factory errors, the key is
still registered in the pending-observable map — the removal happens only in
the `tap` success callback. -/
theorem wrap_error_keeps_pending_cex :
    scontains "k"
      (wrapErrorStep (wrapStep 0 "k" (emptyCache (α := Nat))).2.1).observables = true ∧
    ¬ (scontains "k"
      (wrapErrorStep (wrapStep 0 "k" (emptyCache (α := Nat))).2.1).observables
        = false) := by
  decide

/-- C5, amended. On a cache miss with no pending request, `wrap` registers a
pending entry for the key when the request begins; the entry is removed when
the request emits its first successful value (which also populates the
cache); when the factory errors instead, the service state is completely
unchanged — the pending entry is NOT removed and the cache stays
unpopulated — and the error passes through to the subscriber. -/
theorem wrap_pending_lifecycle (s : CacheState α) (key : String)
    (ttl now now₂ : Nat) (d : Option α) (e : ε)
    (hget : (cacheGet now key s).1 = none)
    (hobs : scontains key s.observables = false) :
    (wrapStep now key s).1 = .newRequest ∧
    scontains key (wrapStep now key s).2.1.observables = true ∧
    scontains key
      (wrapComplete now₂ key ttl d (wrapStep now key s).2.1).observables = false ∧
    alookup key (wrapComplete now₂ key ttl d (wrapStep now key s).2.1).cache
      = some ⟨d, now₂ + ttl, now₂⟩ ∧
    wrapErrorStep (wrapStep now key s).2.1 = (wrapStep now key s).2.1 ∧
    scontains key (wrapErrorStep (wrapStep now key s).2.1).observables = true ∧
    (wrapErrorStep (wrapStep now key s).2.1).cache = (wrapStep now key s).2.1.cache ∧
    wrapNewRequestOutcome (α := α) (Except.error e) = Except.error e := by
  obtain ⟨h1, _, _, h2⟩ := wrapStep_first hget hobs
  refine ⟨h1, h2, ?_, ?_, rfl, h2, rfl, rfl⟩
  · simp [wrapComplete, cacheSet, updateSize, scontains_serase_self]
  · simp [wrapComplete, cacheSet, updateSize, alookup_aset_self]

/-- Witness for C5 (amended) on the empty cache with a success value 9 at
time 5 and an error token. -/
theorem wrap_pending_lifecycle_witness :
    (wrapStep 0 "k" (emptyCache (α := Nat))).1 = .newRequest ∧
    scontains "k"
      (wrapComplete 5 "k" 100 (some 9) (wrapStep 0 "k" (emptyCache (α := Nat))).2.1).observables
        = false ∧
    scontains "k"
      (wrapErrorStep (wrapStep 0 "k" (emptyCache (α := Nat))).2.1).observables = true := by
  have h := wrap_pending_lifecycle (emptyCache (α := Nat)) "k" 100 0 5 (some 9)
    (e := "boom") (by decide) (by decide)
  exact ⟨h.1, h.2.2.1, h.2.2.2.2.2.1⟩

/-- C9, counterexample. The claim says that after `set(key, null, ttl)` a
`get(key)` records a miss; in fact the entry exists and is unexpired, so the
code takes the hit path: it returns the stored `null` (indistinguishable
from absence) while recording a hit, not a miss. -/
theorem cache_null_miss_stat_cex :
    (cacheGet 0 "k" (cacheSet "k" (none : Option Nat) 1000 0 emptyCache)).1 = none ∧
    (cacheGet 0 "k" (cacheSet "k" (none : Option Nat) 1000 0 emptyCache)).2.stats.hits
      = 1 ∧
    ¬ ((cacheGet 0 "k" (cacheSet "k" (none : Option Nat) 1000 0 emptyCache)).2.stats.misses
      = 1) := by
  decide

/-- C9, amended. After `set(key, null, ttl)` and before expiry, `get(key)`
returns `null` — the public absence sentinel — while recording a HIT (the
entry is present and unexpired); `wrap` and `getOrSet` compare the result
against `null`, so both treat the key as a miss and invoke the factory
again. -/
theorem cache_null_value_behaves_as_miss (s : CacheState α) (key : String)
    (ttl now now₁ : Nat) (fv : Option α)
    (h : now₁ ≤ now + ttl)
    (hobs : scontains key s.observables = false) :
    (cacheGet now₁ key (cacheSet key none ttl now s)).1 = none ∧
    (cacheGet now₁ key (cacheSet key none ttl now s)).2.stats.hits
      = (cacheSet key none ttl now s).stats.hits + 1 ∧
    (wrapStep now₁ key (cacheSet key none ttl now s)).1 = .newRequest ∧
    (wrapStep now₁ key (cacheSet key none ttl now s)).2.2 = 1 ∧
    (getOrSet now₁ key ttl fv (cacheSet key none ttl now s)).2.2 = true := by
  have hl : alookup key (cacheSet key (none : Option α) ttl now s).cache
      = some ⟨none, now + ttl, now⟩ := by
    simp [cacheSet, updateSize, alookup_aset_self]
  have hexp : isExpired now₁ (⟨none, now + ttl, now⟩ : CacheEntry α) = false := by
    simp [isExpired]; omega
  have hget : (cacheGet now₁ key (cacheSet key (none : Option α) ttl now s)).1
      = none := by
    simp [cacheGet, hl, hexp, recordHit]
  have hobs₁ : scontains key (cacheSet key (none : Option α) ttl now s).observables
      = false := by
    simpa [cacheSet, updateSize] using hobs
  obtain ⟨w1, w2, _⟩ := wrapStep_first hget hobs₁
  refine ⟨hget, ?_, w1, w2, ?_⟩
  · simp [cacheGet, hl, hexp, recordHit]
  · unfold getOrSet
    rcases hc : cacheGet now₁ key (cacheSet key (none : Option α) ttl now s)
      with ⟨r, s₁⟩
    rw [hc] at hget
    simp only at hget
    subst hget
    rfl

/-- Witness for C9 (amended) at `key = "k"`, `ttl = 1000`, times 0. -/
theorem cache_null_value_behaves_as_miss_witness :
    (cacheGet 0 "k" (cacheSet "k" (none : Option Nat) 1000 0 emptyCache)).2.stats.hits
      = 1 ∧
    (wrapStep 0 "k" (cacheSet "k" (none : Option Nat) 1000 0 emptyCache)).2.2 = 1 ∧
    (getOrSet 0 "k" 1000 (some 3)
      (cacheSet "k" (none : Option Nat) 1000 0 emptyCache)).2.2 = true := by
  have h := cache_null_value_behaves_as_miss (emptyCache (α := Nat)) "k" 1000 0 0
    (some 3) (by omega) (by decide)
  exact ⟨by simpa using h.2.1, h.2.2.2.1, h.2.2.2.2⟩

/-! ### Claim theorems: ApiService GET deduplication -/

/-- Two cache-enabled `get` calls for the same key issued back to back, each
subscribed, with no response arriving in between. -/
def apiTwoGets (key : String) (now : Nat) (s : ApiState α) :
    ApiState α × ApiGetResult α × ApiGetResult α :=
  let r₁ := apiGetStart now key s
  let s₁ := apiSubscribe r₁.1 r₁.2
  let r₂ := apiGetStart now key s₁
  (apiSubscribe r₂.1 r₂.2, r₁.1, r₂.1)

/-- C4, counterexample. The claim says two concurrent cache-enabled GETs
with the same key on an empty cache perform only one HTTP request; in fact
each call builds and dispatches its own request — two HTTP requests. -/
theorem api_get_dedup_cex :
    (apiTwoGets "k" 0 (emptyApi (α := Nat))).1.httpCount = 2 ∧
    ¬ ((apiTwoGets "k" 0 (emptyApi (α := Nat))).1.httpCount = 1) := by
  decide

/-- C4, amended. `ApiService.get` keeps no pending-request map: two
cache-enabled GET calls with the same key issued while the first is still
in flight (cache empty for that key) each trigger their own HTTP request —
`shareReplay(1)` shares a request only among subscribers of the one
observable returned by a single call. Deduplication across calls begins
only once a response has been cached: after the first response is stored,
a later call within the TTL returns the cached single-value stream and
dispatches nothing. -/
theorem api_get_concurrent_two_requests (s : ApiState α) (key : String)
    (now : Nat) (hmiss : alookup key s.cache = none) :
    (apiTwoGets key now s).2.1 = .newRequest ∧
    (apiTwoGets key now s).2.2 = .newRequest ∧
    (apiTwoGets key now s).1.httpCount = s.httpCount + 2 ∧
    (∀ (d : α) (ttl now₂ : Nat), now₂ < now + ttl →
      (apiGetStart now₂ key (apiComplete now key ttl d (apiTwoGets key now s).1)).1
        = .cachedStream d ∧
      (apiGetStart now₂ key (apiComplete now key ttl d (apiTwoGets key now s).1)).2.httpCount
        = s.httpCount + 2) := by
  have hmiss₁ : alookup key (aerase key s.cache) = none := alookup_aerase_self key s.cache
  refine ⟨?_, ?_, ?_, ?_⟩
  · simp [apiTwoGets, apiGetStart, apiGetFromCache, hmiss]
  · simp [apiTwoGets, apiGetStart, apiGetFromCache, hmiss, apiSubscribe, hmiss₁]
  · simp [apiTwoGets, apiGetStart, apiGetFromCache, hmiss, apiSubscribe, hmiss₁]
  · intro d ttl now₂ hlt
    have hl : alookup key (apiComplete now key ttl d (apiTwoGets key now s).1).cache
        = some ⟨d, now + ttl⟩ := by
      simp [apiComplete, alookup_aset_self]
    constructor
    · simp [apiGetStart, apiGetFromCache, hl, hlt]
    · simp [apiTwoGets, apiGetStart, apiGetFromCache, hmiss, apiSubscribe, hmiss₁,
        apiComplete, alookup_aset_self, hlt]

/-- Witness for C4 (amended) on the empty cache. -/
theorem api_get_concurrent_two_requests_witness :
    (apiTwoGets "k" 0 (emptyApi (α := Nat))).2.1 = .newRequest ∧
    (apiTwoGets "k" 0 (emptyApi (α := Nat))).1.httpCount = 2 ∧
    (apiGetStart 50 "k"
      (apiComplete 0 "k" 100 7 (apiTwoGets "k" 0 (emptyApi (α := Nat))).1)).1
        = .cachedStream 7 := by
  have h := api_get_concurrent_two_requests (emptyApi (α := Nat)) "k" 0 (by decide)
  exact ⟨h.1, by simpa using h.2.2.1, (h.2.2.2 7 100 50 (by omega)).1⟩

/-! ### Claim theorems: `withRetry` backoff and status gating -/

/-- The n-th factory invocation fails with an `HttpErrorResponse` whose
status is in the active `retryStatuses` set. -/
def retryableAt (cfg : RetryConfig) (factory : Nat → Except ReqError α)
    (n : Nat) : Prop :=
  ∃ st, factory n = .error (.http st) ∧ cfg.retryStatuses.contains st = true

theorem range_succ_map_shift (g : Nat → Nat) (j : Nat) :
    (List.range (j + 1)).map g = g 0 :: (List.range j).map fun i => g (i + 1) := by
  simp [List.range_succ_eq_map, List.map_map, Function.comp]

theorem withRetryGo_ok (cfg : RetryConfig) (factory : Nat → Except ReqError α)
    (v : α) :
    ∀ (j acc fuel : Nat) (delays : List Nat),
      (∀ i, i < j → retryableAt cfg factory (acc + 1 + i)) →
      factory (acc + 1 + j) = .ok v →
      acc + j ≤ cfg.maxRetries → j < fuel →
      withRetryGo cfg factory fuel acc delays
        = .ok v (delays.reverse
            ++ (List.range j).map fun i => backoffDelay cfg (acc + 1 + i)) := by
  intro j
  induction j with
  | zero =>
    intro acc fuel delays _ hok _ hfuel
    obtain ⟨f, rfl⟩ : ∃ f, fuel = f + 1 := ⟨fuel - 1, by omega⟩
    have hok₁ : factory (acc + 1) = .ok v := by simpa using hok
    simp [withRetryGo, hok₁]
  | succ j ih =>
    intro acc fuel delays hfail hok hle hfuel
    obtain ⟨f, rfl⟩ : ∃ f, fuel = f + 1 := ⟨fuel - 1, by omega⟩
    obtain ⟨st, hf0, hst⟩ := hfail 0 (by omega)
    have hf0₁ : factory (acc + 1) = .error (.http st) := by simpa using hf0
    have hacc : ¬ acc ≥ cfg.maxRetries := by omega
    have hnr : nonRetryable cfg (.http st) = false := by
      simp only [nonRetryable, hst, Bool.not_true]
    have ihres := ih (acc + 1) f (backoffDelay cfg (acc + 1) :: delays)
      (fun i hi => by
        have hx := hfail (i + 1) (by omega)
        have harg : acc + 1 + (i + 1) = acc + 1 + 1 + i := by omega
        rwa [harg] at hx)
      (by
        have harg : acc + 1 + (j + 1) = acc + 1 + 1 + j := by omega
        rwa [harg] at hok)
      (by omega) (by omega)
    rw [withRetryGo, hf0₁]
    simp only [hacc, if_false, hnr, Bool.false_eq_true]
    rw [ihres]
    rw [range_succ_map_shift (fun i => backoffDelay cfg (acc + 1 + i)) j]
    simp only [List.reverse_cons, List.append_assoc, Nat.add_zero,
      List.cons_append, List.nil_append]
    have hmap : List.map (fun i => backoffDelay cfg (acc + 1 + 1 + i)) (List.range j)
        = List.map (fun i => backoffDelay cfg (acc + 1 + (i + 1))) (List.range j) :=
      List.map_congr_left fun a _ => by congr 1; omega
    rw [hmap]

theorem withRetryGo_err (cfg : RetryConfig) (factory : Nat → Except ReqError α)
    (e : ReqError) :
    ∀ (j acc fuel : Nat) (delays : List Nat),
      (∀ i, i < j → retryableAt cfg factory (acc + 1 + i)) →
      factory (acc + 1 + j) = .error e →
      (cfg.maxRetries ≤ acc + j ∨ nonRetryable cfg e = true) →
      acc + j ≤ cfg.maxRetries → j < fuel →
      withRetryGo cfg factory fuel acc delays
        = .err e (delays.reverse
            ++ (List.range j).map fun i => backoffDelay cfg (acc + 1 + i)) := by
  intro j
  induction j with
  | zero =>
    intro acc fuel delays _ herr hstop _ hfuel
    obtain ⟨f, rfl⟩ : ∃ f, fuel = f + 1 := ⟨fuel - 1, by omega⟩
    have herr₁ : factory (acc + 1) = .error e := by simpa using herr
    rcases hstop with h | h
    · have hge : acc ≥ cfg.maxRetries := by omega
      simp [withRetryGo, herr₁, hge]
    · by_cases hge : acc ≥ cfg.maxRetries
      · simp [withRetryGo, herr₁, hge]
      · simp [withRetryGo, herr₁, hge, h]
  | succ j ih =>
    intro acc fuel delays hfail herr hstop hle hfuel
    obtain ⟨f, rfl⟩ : ∃ f, fuel = f + 1 := ⟨fuel - 1, by omega⟩
    obtain ⟨st, hf0, hst⟩ := hfail 0 (by omega)
    have hf0₁ : factory (acc + 1) = .error (.http st) := by simpa using hf0
    have hacc : ¬ acc ≥ cfg.maxRetries := by omega
    have hnr : nonRetryable cfg (.http st) = false := by
      simp only [nonRetryable, hst, Bool.not_true]
    have ihres := ih (acc + 1) f (backoffDelay cfg (acc + 1) :: delays)
      (fun i hi => by
        have hx := hfail (i + 1) (by omega)
        have harg : acc + 1 + (i + 1) = acc + 1 + 1 + i := by omega
        rwa [harg] at hx)
      (by
        have harg : acc + 1 + (j + 1) = acc + 1 + 1 + j := by omega
        rwa [harg] at herr)
      (by
        rcases hstop with h | h
        · exact Or.inl (by omega)
        · exact Or.inr h)
      (by omega) (by omega)
    rw [withRetryGo, hf0₁]
    simp only [hacc, if_false, hnr, Bool.false_eq_true]
    rw [ihres]
    rw [range_succ_map_shift (fun i => backoffDelay cfg (acc + 1 + i)) j]
    simp only [List.reverse_cons, List.append_assoc, Nat.add_zero,
      List.cons_append, List.nil_append]
    have hmap : List.map (fun i => backoffDelay cfg (acc + 1 + 1 + i)) (List.range j)
        = List.map (fun i => backoffDelay cfg (acc + 1 + (i + 1))) (List.range j) :=
      List.map_congr_left fun a _ => by congr 1; omega
    rw [hmap]

/-- The retry configuration of claim C1's concrete scenario. -/
def c1cfg : RetryConfig :=
  { maxRetries := 3
    retryDelay := 1000
    retryStatuses := [408, 429, 500, 502, 503, 504]
    exponentialBackoff := true }

/-- The factory of claim C1's concrete scenario: three 503 failures, then
success with 42. -/
def c1factory : Nat → Except ReqError Nat :=
  fun n => if n ≤ 3 then .error (.http 503) else .ok 42

/-- C1, counterexample. With `maxRetries = 3`, `retryDelay = 1000` and
exponential backoff, a factory failing thrice with 503 then succeeding
yields the success value after delays of 2000, 4000, 8000 ms — the scan
feeds the already-incremented retry count to the delay computation — not
the claimed 1000, 2000, 4000 ms. -/
theorem withRetry_backoff_cex :
    withRetry c1cfg c1factory = .ok 42 [2000, 4000, 8000] ∧
    withRetry c1cfg c1factory ≠ .ok 42 [1000, 2000, 4000] := by
  decide

/-- C1, amended. Under exponential backoff the delay before retry attempt n
(1-based) is `min(retryDelay * 2^n, 30000)` — one doubling step beyond the
claimed `2^(n-1)` — and flat `retryDelay` otherwise; a factory failing m
(≤ maxRetries) times with retryable statuses then succeeding yields the
success value after exactly those m delays. -/
theorem withRetry_backoff_delays (cfg : RetryConfig)
    (factory : Nat → Except ReqError α) (m : Nat) (v : α)
    (hfail : ∀ i, i < m → retryableAt cfg factory (i + 1))
    (hok : factory (m + 1) = .ok v)
    (hm : m ≤ cfg.maxRetries) :
    withRetry cfg factory
      = .ok v ((List.range m).map fun i =>
          if cfg.exponentialBackoff then
            min (cfg.retryDelay * 2 ^ (i + 1)) 30000
          else cfg.retryDelay) := by
  have h := withRetryGo_ok cfg factory v m 0 (cfg.maxRetries + 1) []
    (fun i hi => by
      have hx := hfail i hi
      have harg : i + 1 = 0 + 1 + i := by omega
      rwa [harg] at hx)
    (by
      have harg : m + 1 = 0 + 1 + m := by omega
      rwa [harg] at hok)
    (by omega) (by omega)
  rw [withRetry, h]
  simp only [List.reverse_nil, List.nil_append]
  congr 1
  refine List.map_congr_left fun a _ => ?_
  rw [show 0 + 1 + a = a + 1 by omega, backoffDelay]

/-- Witness for C1 (amended) at the claim's scenario: the code's delays are
2000, 4000, 8000 ms and the stream yields the success value. -/
theorem withRetry_backoff_delays_witness :
    withRetry c1cfg c1factory = .ok 42 [2000, 4000, 8000] := by
  have h := withRetry_backoff_delays c1cfg c1factory 3 42
    (fun i hi => ⟨503, by interval_cases i <;> exact ⟨rfl, rfl⟩⟩)
    rfl (by decide)
  rw [h]
  decide

/-- C6. First conjunct: as long as every preceding error carried a
retryable status, an error whose status is outside `retryStatuses` aborts
the stream at once with that error — with `m = 0`, immediately and with no
delay at all. Second conjunct: when every attempt up to `maxRetries + 1`
fails with a retryable status, the retries are exhausted and the last error
is re-raised after exactly `maxRetries` backoff delays. -/
theorem withRetry_status_gate (cfg : RetryConfig)
    (factory : Nat → Except ReqError α) :
    (∀ m st, m ≤ cfg.maxRetries →
      (∀ i, i < m → retryableAt cfg factory (i + 1)) →
      factory (m + 1) = .error (.http st) →
      cfg.retryStatuses.contains st = false →
      withRetry cfg factory
        = .err (.http st)
            ((List.range m).map fun i => backoffDelay cfg (i + 1))) ∧
    (∀ e, (∀ i, i < cfg.maxRetries → retryableAt cfg factory (i + 1)) →
      factory (cfg.maxRetries + 1) = .error e →
      withRetry cfg factory
        = .err e
            ((List.range cfg.maxRetries).map fun i => backoffDelay cfg (i + 1))) := by
  constructor
  · intro m st hm hfail herr hst
    have h := withRetryGo_err cfg factory (.http st) m 0 (cfg.maxRetries + 1) []
      (fun i hi => by
        have hx := hfail i hi
        have harg : i + 1 = 0 + 1 + i := by omega
        rwa [harg] at hx)
      (by
        have harg : m + 1 = 0 + 1 + m := by omega
        rwa [harg] at herr)
      (Or.inr (by simp only [nonRetryable, hst, Bool.not_false]))
      (by omega) (by omega)
    rw [withRetry, h]
    simp only [List.reverse_nil, List.nil_append]
    congr 1
    refine List.map_congr_left fun a _ => ?_
    congr 1
    omega
  · intro e hfail herr
    have h := withRetryGo_err cfg factory e cfg.maxRetries 0 (cfg.maxRetries + 1) []
      (fun i hi => by
        have hx := hfail i hi
        have harg : i + 1 = 0 + 1 + i := by omega
        rwa [harg] at hx)
      (by
        have harg : cfg.maxRetries + 1 = 0 + 1 + cfg.maxRetries := by omega
        rwa [harg] at herr)
      (Or.inl (by omega))
      (by omega) (by omega)
    rw [withRetry, h]
    simp only [List.reverse_nil, List.nil_append]
    congr 1
    refine List.map_congr_left fun a _ => ?_
    congr 1
    omega

/-- Witness for C6: under the default config, a factory that always fails
with 400 aborts immediately with no delay, and one that always fails with
503 exhausts the three retries and re-raises the last 503. -/
theorem withRetry_status_gate_witness :
    withRetry DEFAULT_RETRY_CONFIG
        (fun _ => (.error (.http 400) : Except ReqError Nat))
      = .err (.http 400) [] ∧
    withRetry DEFAULT_RETRY_CONFIG
        (fun _ => (.error (.http 503) : Except ReqError Nat))
      = .err (.http 503) [2000, 4000, 8000] := by
  constructor
  · have h := (withRetry_status_gate DEFAULT_RETRY_CONFIG
      (fun _ => (.error (.http 400) : Except ReqError Nat))).1 0 400
      (by omega) (fun i hi => absurd hi (by omega)) rfl (by decide)
    rw [h]
    decide
  · have h := (withRetry_status_gate DEFAULT_RETRY_CONFIG
      (fun _ => (.error (.http 503) : Except ReqError Nat))).2 (.http 503)
      (fun i _ => ⟨503, rfl, rfl⟩) rfl
    rw [h]
    decide

/-! ### Claim theorems: WebSocket reconnect exhaustion -/

/-- Claim C7's connection options: reconnect enabled with `k` attempts,
other fields at their defaults. -/
def cfgC7 (k : Nat) : WSConfig := { reconnect := true, reconnectAttempts := k }

/-- Service state after `connect` with `cfgC7 k` and a successful open. -/
def c7Start (k : Nat) : WSState Unit := wsOpenEvent (wsConnect (cfgC7 k) wsInit)

theorem c7Start_eq (k : Nat) :
    c7Start k
      = ⟨true, .connected, some (cfgC7 k), 0, true, none, []⟩ := by
  simp [c7Start, wsConnect, wsInit, wsCreateConnection, wsOpenEvent, cfgC7]

theorem wsRound_proceed (k a : Nat) (st0 : WSConnState) (hb : Bool)
    (lerr : Option WSError) (h : a + 2 ≤ k) :
    wsRound (⟨true, st0, some (cfgC7 k), a, hb, lerr, []⟩ : WSState Unit)
      = ⟨true, .reconnecting, some (cfgC7 k), a + 2, false, some .transport, []⟩ := by
  have h1 : ¬ k ≤ a := by omega
  have h2 : ¬ k ≤ a + 1 := by omega
  simp [wsRound, wsUncleanClose, wsCloseObserver, wsStopHeartbeat,
    wsSubscriberError, wsAttemptReconnect, wsTimersFire, wsCreateConnection,
    cfgC7, h1, h2]

theorem wsRound_giveup_odd (k a : Nat) (st0 : WSConnState) (hb : Bool)
    (lerr : Option WSError) (hlt : a < k) (hle : k ≤ a + 1) :
    wsRound (⟨true, st0, some (cfgC7 k), a, hb, lerr, []⟩ : WSState Unit)
      = ⟨true, .error, some (cfgC7 k), a + 1, false, some .maxReconnect, []⟩ := by
  have h1 : ¬ k ≤ a := by omega
  simp [wsRound, wsUncleanClose, wsCloseObserver, wsStopHeartbeat,
    wsSubscriberError, wsAttemptReconnect, wsTimersFire, wsCreateConnection,
    cfgC7, h1, hle]

theorem wsRound_giveup_even (k a : Nat) (st0 : WSConnState) (hb : Bool)
    (lerr : Option WSError) (hle : k ≤ a) :
    wsRound (⟨true, st0, some (cfgC7 k), a, hb, lerr, []⟩ : WSState Unit)
      = ⟨true, .error, some (cfgC7 k), a, false, some .maxReconnect, []⟩ := by
  simp [wsRound, wsUncleanClose, wsCloseObserver, wsStopHeartbeat,
    wsSubscriberError, wsAttemptReconnect, wsTimersFire, wsCreateConnection,
    cfgC7, hle]

/-- Closed form of the trace: connected at round 0; while attempts remain,
two reconnect attempts are consumed per unclean close (the rxjs subject
notifies both the close observer and the subscription's error handler);
once the counter reaches `k`, terminal `error` state with the
max-reconnection-attempts error. -/
def c7state (k j : Nat) : WSState Unit :=
  if j = 0 then ⟨true, .connected, some (cfgC7 k), 0, true, none, []⟩
  else if 2 * j ≤ k then
    ⟨true, .reconnecting, some (cfgC7 k), 2 * j, false, some .transport, []⟩
  else ⟨true, .error, some (cfgC7 k), k, false, some .maxReconnect, []⟩

theorem c7_char (k : Nat) : ∀ j, wsAfterRounds (c7Start k) j = c7state k j := by
  intro j
  induction j with
  | zero =>
    rw [wsAfterRounds, c7Start_eq]
    simp [c7state]
  | succ j ih =>
    rw [wsAfterRounds, ih]
    by_cases hj : j = 0
    · subst hj
      rw [show c7state k 0 = ⟨true, .connected, some (cfgC7 k), 0, true, none, []⟩
        from by simp [c7state]]
      by_cases h2 : 2 ≤ k
      · rw [wsRound_proceed k 0 _ _ _ (by omega)]
        simp only [c7state]
        rw [if_neg (by omega), if_pos (by omega)]
      · by_cases h1 : k = 1
        · rw [wsRound_giveup_odd k 0 _ _ _ (by omega) (by omega)]
          simp only [c7state]
          rw [if_neg (by omega), if_neg (by omega)]
          all_goals simp only [WSState.mk.injEq, and_true, true_and]
          all_goals omega
        · rw [wsRound_giveup_even k 0 _ _ _ (by omega)]
          simp only [c7state]
          rw [if_neg (by omega), if_neg (by omega)]
          all_goals simp only [WSState.mk.injEq, and_true, true_and]
          all_goals omega
    · by_cases hle : 2 * j ≤ k
      · rw [show c7state k j
            = ⟨true, .reconnecting, some (cfgC7 k), 2 * j, false, some .transport, []⟩
          from by
            simp only [c7state]
            rw [if_neg hj, if_pos hle]]
        by_cases h2 : 2 * j + 2 ≤ k
        · rw [wsRound_proceed k (2 * j) _ _ _ (by omega)]
          simp only [c7state]
          rw [if_neg (by omega), if_pos (by omega)]
          all_goals simp only [WSState.mk.injEq, and_true, true_and]
          all_goals omega
        · by_cases hodd : k = 2 * j + 1
          · rw [wsRound_giveup_odd k (2 * j) _ _ _ (by omega) (by omega)]
            simp only [c7state]
            rw [if_neg (by omega), if_neg (by omega)]
            all_goals simp only [WSState.mk.injEq, and_true, true_and]
            all_goals omega
          · rw [wsRound_giveup_even k (2 * j) _ _ _ (by omega)]
            simp only [c7state]
            rw [if_neg (by omega), if_neg (by omega)]
            all_goals simp only [WSState.mk.injEq, and_true, true_and]
            all_goals omega
      · rw [show c7state k j
            = ⟨true, .error, some (cfgC7 k), k, false, some .maxReconnect, []⟩
          from by
            simp only [c7state]
            rw [if_neg hj, if_neg hle]]
        rw [wsRound_giveup_even k k _ _ _ (by omega)]
        simp only [c7state]
        rw [if_neg (by omega), if_neg (by omega)]

/-- C7. Starting connected with `reconnect: true, reconnectAttempts: k`,
after `j` unclean-close rounds the attempt counter is `min (2*j) k` — it
never exceeds `k`, so no (k+1)-th attempt is ever initiated without a fresh
`connect()`; while attempts remain the service is in the `reconnecting`
state; once the close events outnumber the budget (`2*j > k`), the service
is in the terminal `error` state carrying the max-reconnection-attempts
error. Every proceeding `attemptReconnect` enters `reconnecting` and
increments the counter by one; at the cap, it only records the terminal
error. -/
theorem websocket_reconnect_exhaustion (k j : Nat) :
    (wsAfterRounds (c7Start k) j).reconnectAttempts = min (2 * j) k ∧
    (wsAfterRounds (c7Start k) j).reconnectAttempts ≤ k ∧
    (1 ≤ j → 2 * j ≤ k →
      (wsAfterRounds (c7Start k) j).connState = .reconnecting) ∧
    (k < 2 * j →
      (wsAfterRounds (c7Start k) j).connState = .error ∧
      (wsAfterRounds (c7Start k) j).lastError = some .maxReconnect) ∧
    (∀ s : WSState Unit, s.config = some (cfgC7 k) →
      (s.reconnectAttempts < k →
        wsAttemptReconnect s
          = { s with connState := .reconnecting,
                     reconnectAttempts := s.reconnectAttempts + 1 }) ∧
      (k ≤ s.reconnectAttempts →
        wsAttemptReconnect s = { s with lastError := some .maxReconnect })) := by
  rw [c7_char]
  refine ⟨?_, ?_, ?_, ?_, ?_⟩
  · simp only [c7state]
    split_ifs with h1 h2
    · subst h1; simp
    · simp; omega
    · simp; omega
  · simp only [c7state]
    split_ifs with h1 h2 <;> simp <;> omega
  · intro hj hk
    simp only [c7state]
    rw [if_neg (by omega), if_pos hk]
  · intro hk
    simp only [c7state]
    rw [if_neg (by omega), if_neg (by omega)]
    exact ⟨rfl, rfl⟩
  · intro s hcfg
    constructor
    · intro hlt
      have h1 : ¬ k ≤ s.reconnectAttempts := by omega
      simp [wsAttemptReconnect, hcfg, cfgC7, h1]
    · intro hle
      simp [wsAttemptReconnect, hcfg, cfgC7, hle]

/-- Witness for C7 at `k = 2`, `j = 2`: exactly two reconnect attempts, then
the terminal error state, never a third attempt. -/
theorem websocket_reconnect_exhaustion_witness :
    (wsAfterRounds (c7Start 2) 2).reconnectAttempts = 2 ∧
    (wsAfterRounds (c7Start 2) 2).connState = .error ∧
    (wsAfterRounds (c7Start 2) 2).lastError = some .maxReconnect := by
  have h := websocket_reconnect_exhaustion 2 2
  exact ⟨h.1.trans (by norm_num), (h.2.2.2.1 (by omega)).1, (h.2.2.2.1 (by omega)).2⟩

/-! ### Claim theorems: paginated stream and WebSocket request timeout -/

/-- C8. With page size `p` (server pages `P1`, `P2` of `p` items each,
first page reporting another page available): the first `data$` value after
the initial page loads is exactly page 1's `p` items; after one
`loadMore()` and its response, `data$` holds pages 1 and 2 concatenated in
order (`2p` items, appended not replaced); `reset()` empties the
accumulator and, once the re-issued page-1 request answers, `data$` is back
to page 1's `p` items. -/
theorem paginated_stream_accumulates (P1 P2 : List ι) (p : Nat) (hm2 : Bool)
    (h1 : P1.length = p) (h2 : P2.length = p) :
    (pagResponse 1 P1 true (pagInit (ι := ι) 1)).data = P1 ∧
    (pagResponse 1 P1 true (pagInit (ι := ι) 1)).data.length = p ∧
    (pagLoadMore (pagResponse 1 P1 true (pagInit (ι := ι) 1))).page = 2 ∧
    (pagResponse 1 P2 hm2
      (pagLoadMore (pagResponse 1 P1 true (pagInit (ι := ι) 1)))).data = P1 ++ P2 ∧
    (pagResponse 1 P2 hm2
      (pagLoadMore (pagResponse 1 P1 true (pagInit (ι := ι) 1)))).data.length
        = 2 * p ∧
    (pagReset 1 (pagResponse 1 P2 hm2
      (pagLoadMore (pagResponse 1 P1 true (pagInit (ι := ι) 1))))).data = [] ∧
    (pagResponse 1 P1 true (pagReset 1 (pagResponse 1 P2 hm2
      (pagLoadMore (pagResponse 1 P1 true (pagInit (ι := ι) 1)))))).data = P1 := by
  refine ⟨?_, ?_, ?_, ?_, ?_, ?_, ?_⟩ <;>
    simp [pagInit, pagResponse, pagLoadMore, pagReset, h1, h2] <;> omega

/-- Witness for C8 with `p = 2`, pages `[10, 20]` and `[30, 40]`. -/
theorem paginated_stream_accumulates_witness :
    (pagResponse 1 [10, 20] true (pagInit (ι := Nat) 1)).data = [10, 20] ∧
    (pagResponse 1 [30, 40] true
      (pagLoadMore (pagResponse 1 [10, 20] true (pagInit (ι := Nat) 1)))).data
        = [10, 20, 30, 40] ∧
    (pagReset 1 (pagResponse 1 [30, 40] true
      (pagLoadMore (pagResponse 1 [10, 20] true (pagInit (ι := Nat) 1))))).data
        = [] := by
  have h := paginated_stream_accumulates (ι := Nat) [10, 20] [30, 40] 2 true rfl rfl
  exact ⟨h.1, h.2.2.2.1, h.2.2.2.2.2.1⟩

/-- C10. A `request(type, payload, responseType, timeout)` issued while the
connection state is not `connected`: `send` silently drops the message (the
service state, including everything pushed to the socket, is unchanged) and
— since no correlated response can arrive — the returned stream fails with
the timeout error at exactly the configured timeout, not immediately with a
not-connected error. -/
theorem ws_request_not_connected (s : WSState α) (now freshId tmo : Nat)
    (ty respTy : String) (payload : α) (incoming : List (Nat × WSMsg α))
    (hconn : s.connState ≠ .connected)
    (hnoresp : ∀ p ∈ incoming,
      ¬ (p.1 < tmo ∧ p.2.type = respTy ∧ p.2.id = some freshId)) :
    (wsRequest now freshId ty payload respTy tmo incoming s).1 = s ∧
    (wsRequest now freshId ty payload respTy tmo incoming s).1.outbox = s.outbox ∧
    (wsRequest now freshId ty payload respTy tmo incoming s).2 = .timedOut tmo := by
  have hsend : wsSend now freshId
      { type := ty, payload := payload, timestamp := none, id := some freshId } s
        = (s, false) := by
    rw [wsSend, if_pos (Or.inr hconn)]
  have hfind : incoming.find? (fun p =>
      decide (p.1 < tmo) && decide (p.2.type = respTy)
        && decide (p.2.id = some freshId)) = none := by
    rw [List.find?_eq_none]
    intro p hp
    have := hnoresp p hp
    simp only [Bool.and_eq_true, decide_eq_true_eq]
    rintro ⟨⟨ha, hb⟩, hc⟩
    exact this ⟨ha, hb, hc⟩
  rw [wsRequest]
  rw [hsend, hfind]
  exact ⟨rfl, rfl, rfl⟩

/-- Witness for C10 on a freshly initialised (disconnected) service with no
incoming messages and a 100 ms timeout. -/
theorem ws_request_not_connected_witness :
    (wsRequest 0 99 "q" (37 : Nat) "resp" 100 [] wsInit).1 = wsInit ∧
    (wsRequest 0 99 "q" (37 : Nat) "resp" 100 [] wsInit).2 = .timedOut 100 := by
  have h := ws_request_not_connected (wsInit (α := Nat)) 0 99 100 "q" "resp" 37 []
    (by decide) (by intro p hp; cases hp)
  exact ⟨h.1, h.2.2⟩

end Flyfront
